import Mathlib

/-!
Verification development for the `msg_generate.go` code generator of the
tmthrgd/miekgdns repository.  The generator walks the exported struct types of
the package, keeps those whose first field is (directly or through embedding)
an `RR_Header`, and emits one `pack` and one `unpack` routine per record type,
dispatching on the field's struct tag.

The shallow embedding below mirrors the source:
* Go strings are Lean `String`s; the helpers from the Go `strings` package that
  the source uses (`HasPrefix`, `TrimPrefix`, `TrimSuffix`, `Cut`, `LastIndex`)
  are modelled char-exactly on `String.data`.
* The output buffer (`bytes.Buffer`) is modelled as a `List String`, one entry
  per `Fprintf`/`Fprintln`/`Fprint` call, in emission order; the final artifact
  is the concatenation of the entries.  `Fprintf` with a constant format string
  and `%s` verbs is translated by performing the substitution in place.
* `log.Fatalln`/`log.Fatalf` aborts are modelled with `Except String`.
* A struct field as seen by the emitters carries its name, its shape
  (slice vs. basic scalar, with the basic kind used for untagged fields) and
  its raw struct tag, exactly the data the source reads from `go/types`.
-/

namespace MsgGenerate

/-! ## Go `strings` helpers used by the source (msg_generate.go lines 341-352) -/

/-- Go `strings.HasPrefix s p`. -/
def hasPrefixB (s p : String) : Bool :=
  p.data.isPrefixOf s.data

/-- Go `strings.TrimPrefix s p`. -/
def trimPrefixStr (s p : String) : String :=
  if hasPrefixB s p then ⟨s.data.drop p.data.length⟩ else s

/-- Go `strings.Cut s ":"`, first component (the part before the first colon,
or all of `s` when there is no colon). -/
def cutBeforeColon (s : String) : String :=
  ⟨s.data.takeWhile (fun c => c != ':')⟩

/-- Go `s[strings.LastIndex(s, ":")+1:]`: the part after the last colon, or all
of `s` when there is no colon. -/
def afterLastColon (s : String) : String :=
  ⟨(s.data.reverse.takeWhile (fun c => c != ':')).reverse⟩

/-- Go `strings.TrimSuffix s p`. -/
def trimSuffixStr (s p : String) : String :=
  if p.data.isSuffixOf s.data then ⟨s.data.take (s.data.length - p.data.length)⟩ else s

/-- `structTag` of msg_generate.go (lines 347-352): takes a tag like
`dns:"size-base32:SaltLength"` and returns `base32`. -/
def structTag (s : String) : String :=
  cutBeforeColon (trimPrefixStr s "dns:\"size-")

/-- `structMember` of msg_generate.go (lines 341-345): takes a tag like
`dns:"size-base32:SaltLength"` and returns the last part of the string. -/
def structMember (s : String) : String :=
  trimSuffixStr (afterLastColon s) "\""

/-! ## Field model: what the emitters read from `go/types` for one field -/

/-- The kind of a `*types.Basic` field type (`types.Uint8`, ..., `types.String`);
`other` stands for any other basic kind (e.g. `types.Int`), which the untagged
case of both emitters rejects. -/
inductive BasicKind where
  | uint8 | uint16 | uint32 | uint64 | str | other
deriving DecidableEq

/-- Shape of a field's type: `*types.Slice`, or a `*types.Basic` of a kind. -/
inductive FieldType where
  | slice : FieldType
  | basic : BasicKind → FieldType
deriving DecidableEq

/-- One struct field as the emitters see it: `st.Field(i).Name()`, the shape of
`st.Field(i).Type()`, and the raw struct tag `st.Tag(i)` (empty when the field
carries no tag). -/
structure Field where
  name : String
  typ : FieldType
  tag : String
deriving DecidableEq

/-! ## Emitted text fragments -/

/-- Error check emitted after each pack step by the closure `o` (lines 104-107). -/
def packErrLine : String := "if err != nil \x7b\nreturn off, err\n\x7d\n"

/-- Error check emitted after unpack steps by `errCheck` (line 210). -/
def unpackErrLine : String := "if err != nil \x7b return err \x7d\n"

/-- Early-success check emitted between unpack steps (line 320). -/
def emptyCheckLine : String := "if s.Empty() \x7b return nil \x7d\n"

/-- Trailing-data check emitted after the last unpack step (line 323). -/
def trailingCheckLine : String := "if !s.Empty() \x7b return errTrailingRData \x7d\n"

/-- The conditional pack step emitted for `size-hex:SaltLength` fields
(lines 159-166), with the field name substituted for both `%s` verbs. -/
def saltPackChunk (name : String) : String :=
  "// Only pack salt if value is not \"-\", i.e. empty\nif rr." ++ name ++
    " != \"-\" \x7b\n  off, err = packStringHex(rr." ++ name ++
    ", msg, off)\n  if err != nil \x7b\n    return off, err\n  \x7d\n\x7d\n"

/-- A pack step of the common shape `off, err = prim(rr.Name, suffix` followed
by the error check, as written by the closure `o` (lines 102-108). -/
def packStep (prim : String) (name : String) (suffix : String) : List String :=
  ["off, err = " ++ prim ++ "(rr." ++ name ++ suffix, packErrLine]

/-! ## Pack emitter: loop body of lines 101-196 for one field -/

/-- Go `switch` semantics over pre-rendered arms: the body of the first arm
whose guard holds; the default body when no guard holds.  A `fallthrough` from
a `case` into the next (as at lines 147, 152, 169) is rendered as a disjunctive
guard on the shared body. -/
def switchFirst {α : Type} : List (Bool × α) → α → α
  | [], dflt => dflt
  | (b, v) :: rest, dflt => if b then v else switchFirst rest dflt

/-- The untagged-field pack dispatch on the basic kind (lines 178-192). -/
def untaggedPack (rn : String) (k : BasicKind) (name : String) : Except String (List String) :=
  match k with
  | .uint8 => .ok (packStep "packUint8" name ", msg, off)\n")
  | .uint16 => .ok (packStep "packUint16" name ", msg, off)\n")
  | .uint32 => .ok (packStep "packUint32" name ", msg, off)\n")
  | .uint64 => .ok (packStep "packUint64" name ", msg, off)\n")
  | .str => .ok (packStep "packString" name ", msg, off)\n")
  | .other => .error (rn ++ " " ++ name)

/-- The text emitted into the pack routine for field `f` of record `rn`
(the body of the `for i := 1; ...` loop at lines 101-196). `.error` models
`log.Fatalln`. -/
def packFieldLines (rn : String) (f : Field) : Except String (List String) :=
  match f.typ with
  | .slice =>
    switchFirst
      [(f.tag == "dns:\"-\"", .ok []),
       (f.tag == "dns:\"txt\"", .ok (packStep "packStringTxt" f.name ", msg, off)\n")),
       (f.tag == "dns:\"opt\"", .ok (packStep "packDataOpt" f.name ", msg, off)\n")),
       (f.tag == "dns:\"nsec\"", .ok (packStep "packDataNsec" f.name ", msg, off)\n")),
       (f.tag == "dns:\"pairs\"", .ok (packStep "packDataSVCB" f.name ", msg, off)\n")),
       (f.tag == "dns:\"domain-name\"",
         .ok (packStep "packDataDomainNames" f.name ", msg, off, compression, false)\n")),
       (f.tag == "dns:\"apl\"", .ok (packStep "packDataApl" f.name ", msg, off)\n"))]
      (.error (rn ++ " " ++ f.name ++ " " ++ f.tag))
  | .basic k =>
    switchFirst
      [(f.tag == "dns:\"-\"", .ok []),
       (f.tag == "dns:\"cdomain-name\"",
         .ok (packStep "packDomainName" f.name ", msg, off, compression, compress)\n")),
       (f.tag == "dns:\"domain-name\"",
         .ok (packStep "packDomainName" f.name ", msg, off, compression, false)\n")),
       (f.tag == "dns:\"a\"", .ok (packStep "packDataA" f.name ", msg, off)\n")),
       (f.tag == "dns:\"aaaa\"", .ok (packStep "packDataAAAA" f.name ", msg, off)\n")),
       (f.tag == "dns:\"uint48\"", .ok (packStep "packUint48" f.name ", msg, off)\n")),
       (f.tag == "dns:\"txt\"", .ok (packStep "packString" f.name ", msg, off)\n")),
       (hasPrefixB f.tag "dns:\"size-base32" || f.tag == "dns:\"base32\"",
         .ok (packStep "packStringBase32" f.name ", msg, off)\n")),
       (hasPrefixB f.tag "dns:\"size-base64" || f.tag == "dns:\"base64\"",
         .ok (packStep "packStringBase64" f.name ", msg, off)\n")),
       (hasPrefixB f.tag "dns:\"size-hex:SaltLength", .ok [saltPackChunk f.name]),
       (hasPrefixB f.tag "dns:\"size-hex" || f.tag == "dns:\"hex\"",
         .ok (packStep "packStringHex" f.name ", msg, off)\n")),
       (f.tag == "dns:\"any\"", .ok (packStep "packStringAny" f.name ", msg, off)\n")),
       (f.tag == "dns:\"octet\"", .ok (packStep "packStringOctet" f.name ", msg, off)\n")),
       (f.tag == "dns:\"ipsechost\"" || f.tag == "dns:\"amtrelayhost\"",
         .ok ["off, err = packIPSECGateway(rr.GatewayAddr, rr." ++ f.name ++
                ", msg, off, rr.GatewayType, compression, false)\n", packErrLine]),
       (f.tag == "", untaggedPack rn k f.name)]
      (.error (rn ++ " " ++ f.name ++ " " ++ f.tag))

/-! ## Unpack emitter: loop body of lines 208-322 for one field -/

/-- An unpack step of the shape `rr.Name, err = unpacker(args` followed by the
error check (`unpackField`/`unpackFieldBuf`/`unpackFieldRest`/`unpackFieldLength`,
lines 212-227). -/
def unpackStep (name : String) (unpacker : String) (args : String) : List String :=
  ["rr." ++ name ++ ", err = " ++ unpacker ++ "(" ++ args ++ ")\n", unpackErrLine]

/-- A fixed-width integer read, `readInt` (lines 228-230). -/
def readIntStep (ty : String) (name : String) : List String :=
  ["if !s.Read" ++ ty ++ "(&rr." ++ name ++ ") \x7b return errUnpackOverflow \x7d\n"]

/-- The untagged-field unpack dispatch on the basic kind (lines 300-314). -/
def untaggedUnpack (rn : String) (k : BasicKind) (name : String) :
    Except String (List String × Bool) :=
  match k with
  | .uint8 => .ok (readIntStep "Uint8" name, true)
  | .uint16 => .ok (readIntStep "Uint16" name, true)
  | .uint32 => .ok (readIntStep "Uint32" name, true)
  | .uint64 => .ok (readIntStep "Uint64" name, true)
  | .str => .ok (unpackStep name "unpackString" "&s", true)
  | .other => .error (rn ++ " " ++ name)

/-- The text emitted into the unpack routine for field `f` of record `rn`,
without the inter-field empty check.  The `Bool` records whether control falls
through to the empty-check emission at lines 318-321: the `size-` branch
(line 246), the slice branch (line 268) and the ignored scalar tag (line 273)
all `continue` past it, so they return `false`. -/
def unpackStepCore (rn : String) (f : Field) : Except String (List String × Bool) :=
  if hasPrefixB f.tag "dns:\"size-" then
    switchFirst
      [(structTag f.tag == "hex",
         .ok (unpackStep f.name "unpackStringHex" ("&s, int(rr." ++ structMember f.tag ++ ")"),
              false)),
       (structTag f.tag == "base32",
         .ok (unpackStep f.name "unpackStringBase32" ("&s, int(rr." ++ structMember f.tag ++ ")"),
              false)),
       (structTag f.tag == "base64",
         .ok (unpackStep f.name "unpackStringBase64" ("&s, int(rr." ++ structMember f.tag ++ ")"),
              false))]
      (.error (rn ++ " " ++ f.name ++ " " ++ f.tag))
  else match f.typ with
  | .slice =>
    switchFirst
      [(f.tag == "dns:\"-\"", .ok ([], false)),
       (f.tag == "dns:\"txt\"", .ok (unpackStep f.name "unpackStringTxt" "&s", false)),
       (f.tag == "dns:\"opt\"", .ok (unpackStep f.name "unpackDataOpt" "&s", false)),
       (f.tag == "dns:\"nsec\"", .ok (unpackStep f.name "unpackDataNsec" "&s", false)),
       (f.tag == "dns:\"pairs\"", .ok (unpackStep f.name "unpackDataSVCB" "&s", false)),
       (f.tag == "dns:\"domain-name\"",
         .ok (unpackStep f.name "unpackDataDomainNames" "&s, msgBuf", false)),
       (f.tag == "dns:\"apl\"", .ok (unpackStep f.name "unpackDataApl" "&s", false))]
      (.error (rn ++ " " ++ f.name ++ " " ++ f.tag))
  | .basic k =>
    switchFirst
      [(f.tag == "dns:\"-\"", .ok ([], false)),
       (f.tag == "dns:\"cdomain-name\"" || f.tag == "dns:\"domain-name\"",
         .ok (unpackStep f.name "unpackDomainName" "&s, msgBuf", true)),
       (f.tag == "dns:\"a\"", .ok (unpackStep f.name "unpackDataA" "&s", true)),
       (f.tag == "dns:\"aaaa\"", .ok (unpackStep f.name "unpackDataAAAA" "&s", true)),
       (f.tag == "dns:\"uint48\"", .ok (readIntStep "Uint48" f.name, true)),
       (f.tag == "dns:\"txt\"", .ok (unpackStep f.name "unpackString" "&s", true)),
       (f.tag == "dns:\"base32\"",
         .ok (unpackStep f.name "unpackStringBase32" "&s, len(s)", true)),
       (f.tag == "dns:\"base64\"",
         .ok (unpackStep f.name "unpackStringBase64" "&s, len(s)", true)),
       (f.tag == "dns:\"hex\"",
         .ok (unpackStep f.name "unpackStringHex" "&s, len(s)", true)),
       (f.tag == "dns:\"any\"",
         .ok (unpackStep f.name "unpackStringAny" "&s, len(s)", true)),
       (f.tag == "dns:\"octet\"", .ok (unpackStep f.name "unpackStringOctet" "&s", true)),
       (f.tag == "dns:\"ipsechost\"" || f.tag == "dns:\"amtrelayhost\"",
         .ok (["rr.GatewayAddr, rr.GatewayHost, err = unpackIPSECGateway(&s, msgBuf, rr.GatewayType)\n",
               unpackErrLine], true)),
       (f.tag == "", untaggedUnpack rn k f.name)]
      (.error (rn ++ " " ++ f.name ++ " " ++ f.tag))

/-- One full iteration of the unpack loop for field `f`: the step text plus,
when control reaches lines 318-321 and `f` is not the last field
(`i < st.NumFields()-1`), the early-success empty check. -/
def unpackFieldChunk (rn : String) (f : Field) (isLast : Bool) : Except String (List String) :=
  match unpackStepCore rn f with
  | .error e => .error e
  | .ok (ls, reach) => .ok (ls ++ if reach && !isLast then [emptyCheckLine] else [])

/-! ## Routine assembly (lines 96-119 of the pack pass, 201-325 of the unpack pass) -/

/-- Per-field pack chunks for a list of fields, aborting on the first fatal
field (the loop of lines 101-196). -/
def packFieldsChunks (rn : String) : List Field → Except String (List (List String))
  | [] => .ok []
  | f :: rest =>
    match packFieldLines rn f with
    | .error e => .error e
    | .ok c =>
      match packFieldsChunks rn rest with
      | .error e => .error e
      | .ok cs => .ok (c :: cs)

/-- The pack routine for record `rn` with (header-first) field list `st`:
the signature line (line 100), the per-field steps for fields 1.. (line 101),
and the footer (line 197). -/
def packRoutineLines (rn : String) (st : List Field) : Except String (List String) :=
  match packFieldsChunks rn (st.drop 1) with
  | .error e => .error e
  | .ok chunks =>
    .ok (["func (rr *" ++ rn ++
            ") pack(msg []byte, off int, compression compressionMap, compress bool) (off1 int, err error) \x7b\n"]
          ++ chunks.flatten ++ ["return off, nil \x7d\n\n"])

/-- Per-field unpack chunks for the fields after the header, threading the
`i < st.NumFields()-1` test: only the last element of the list is emitted with
`isLast = true`. -/
def unpackFieldsChunks (rn : String) : List Field → Except String (List (List String))
  | [] => .ok []
  | [f] =>
    match unpackFieldChunk rn f true with
    | .error e => .error e
    | .ok c => .ok [c]
  | f :: g :: rest =>
    match unpackFieldChunk rn f false with
    | .error e => .error e
    | .ok c =>
      match unpackFieldsChunks rn (g :: rest) with
      | .error e => .error e
      | .ok cs => .ok (c :: cs)

/-- The unpack routine for record `rn` with (header-first) field list `st`:
signature and cursor setup (lines 205-206), the per-field chunks, the final
trailing-data check (line 323) and the footer (line 324). -/
def unpackRoutineLines (rn : String) (st : List Field) : Except String (List String) :=
  match unpackFieldsChunks rn (st.drop 1) with
  | .error e => .error e
  | .ok chunks =>
    .ok (["func (rr *" ++ rn ++ ") unpack(data, msgBuf []byte) (err error) \x7b\n",
           "s := cryptobyte.String(data)\n"]
          ++ chunks.flatten
          ++ [trailingCheckLine, "return nil \x7d\n\n"])

/-- The package header written first into the buffer (lines 22-29, 93). -/
def packageHdr : String :=
  "\n// Code generated by \"go run msg_generate.go\"; DO NOT EDIT.\n\npackage dns\n\nimport \"golang.org/x/crypto/cryptobyte\"\n\n"

/-- The whole generated artifact (before the external gofmt/file-output sink)
as a function of the extracted schema list: package header, all pack routines,
then all unpack routines (lines 92-325). -/
def generateSource (schemas : List (String × List Field)) : Except String String := do
  let packs ← schemas.mapM (fun p => packRoutineLines p.1 p.2)
  let unpacks ← schemas.mapM (fun p => unpackRoutineLines p.1 p.2)
  .ok (String.join ([packageHdr, "// pack*() functions\n\n"] ++ packs.flatten
        ++ ["// unpack*() functions\n\n"] ++ unpacks.flatten))

/-! ## Schema extractor (lines 36-52) and the main type-collection loop (70-90) -/

/-- The `go/types` data `getTypeStruct` inspects: the distinguished named type
`RR_Header`, any type whose underlying type is not a struct, or a struct type
given by its field list (anonymous-flag and field type).  `RR_Header` itself is
a struct whose first field is a plain (non-anonymous) `string`, so
`getTypeStruct` returns nil for it; the `rrHeader` constructor carries that
fact. -/
inductive Ty where
  | rrHeader : Ty
  | nonStruct : Ty
  | struc : List (Bool × Ty) → Ty

/-- Is this type literally `scope.Lookup("RR_Header").Type()`? -/
def isHeaderTy : Ty → Bool
  | .rrHeader => true
  | _ => false

/-- `getTypeStruct` (lines 36-52): returns the (innermost) struct if the type
is an RR type, plus the indicator that embedded structs were resolved.  As in
the source, the recursive call's struct may be nil while the flag is true. -/
def getTypeStruct : Ty → Option (List (Bool × Ty)) × Bool
  | .rrHeader => (none, false)
  | .nonStruct => (none, false)
  | .struc [] => (none, false)
  | .struc ((anon, fty) :: rest) =>
    if isHeaderTy fty then (some ((anon, fty) :: rest), false)
    else if anon then ((getTypeStruct fty).1, true)
    else (none, false)

/-- Record classification as §4.1 of the spec words it: a non-empty struct
whose first field's type equals the header type, or whose first field is
anonymous and whose embedded type recursively satisfies the rule. -/
def isRecordPerSpec : Ty → Bool
  | .struc ((anon, fty) :: _) => isHeaderTy fty || (anon && isRecordPerSpec fty)
  | _ => false

/-- A package scope: declared names in `scope.Names()` order with their types. -/
abbrev Scope := List (String × Ty)

/-- `scope.Lookup` (by name, first match). -/
def lookupScope (scope : Scope) (n : String) : Option Ty :=
  (List.find? (fun p => p.1 == n) scope).map (·.2)

/-- `o.Exported()`: the name starts with an upper-case letter (ASCII, which
covers every identifier in this domain). -/
def isExported (s : String) : Bool :=
  s.front.isUpper

/-- The type-collection loop of `main` (lines 70-90): walk the scope names,
keep exported types for which `getTypeStruct` finds a struct, skip `PrivateRR`,
and abort unless a `Type<name>` sibling exists or the name is `RFC3597`. -/
def collectNamedTypes (scope : Scope) : Except String (List String) :=
  (scope.map (·.1)).foldlM (fun acc name =>
    match lookupScope scope name with
    | none => .ok acc
    | some t =>
      if !isExported name then .ok acc
      else if ((getTypeStruct t).1).isNone then .ok acc
      else if name == "PrivateRR" then .ok acc
      else if (lookupScope scope ("Type" ++ name)).isNone && name != "RFC3597" then
        .error ("Constant Type" ++ name ++ " does not exist.")
      else .ok (acc ++ [name])) []

/-! ## Counting helpers for the step-count claims -/

/-- Number of fields that actually emitted text (one step each). -/
def stepCount (chunks : List (List String)) : Nat :=
  (chunks.filter (fun c => !c.isEmpty)).length

/-- The unpack step chunks (without the interleaved checks) of a field list,
aborting on the first fatal field. -/
def unpackStepsOf (rn : String) : List Field → Except String (List (List String))
  | [] => .ok []
  | f :: rest =>
    match unpackStepCore rn f with
    | .error e => .error e
    | .ok (c, _) =>
      match unpackStepsOf rn rest with
      | .error e => .error e
      | .ok cs => .ok (c :: cs)

/-- The unpack step chunks (without interleaved checks) of the non-header fields. -/
def unpackStepChunks (rn : String) (st : List Field) : Except String (List (List String)) :=
  unpackStepsOf rn (st.drop 1)

/-- The scenario schema from §8 of the spec:
`Example{ Header; A uint16 (no tag); B sequence of string (tag txt); C string (tag hex) }`. -/
def exampleFields : List Field :=
  [⟨"Hdr", .basic .other, ""⟩,
   ⟨"A", .basic .uint16, ""⟩,
   ⟨"B", .slice, "dns:\"txt\""⟩,
   ⟨"C", .basic .str, "dns:\"hex\""⟩]

/-! ## Annotation-level view for the vocabulary claim -/

/-- The raw struct tag carrying annotation `ann`: a field with no annotation
has an empty raw tag (`st.Tag(i) == ""`), any other annotation appears as
`dns:"<ann>"`. -/
def tagOfAnn (ann : String) : String :=
  if ann == "" then "" else "dns:\"" ++ ann ++ "\""

/-- Did this emitter call succeed (no `log.Fatalln`)? -/
def exceptOk {α : Type} : Except String α → Bool
  | .ok _ => true
  | .error _ => false

/-- Generation succeeds for a field iff neither the pack pass (lines 110-195)
nor the unpack pass (lines 232-317) hits a fatal dispatch failure on it. -/
def fieldGenOk (rn : String) (f : Field) : Bool :=
  exceptOk (packFieldLines rn f) && exceptOk (unpackStepCore rn f)

/-- The closed scalar annotation vocabulary of spec §4.2: the fixed scalar
annotations, the empty annotation over the five supported basic kinds, and the
three size-parametrized forms `size-base32:<f>`, `size-base64:<f>` and
`size-hex:<f>`. -/
def annVocabScalar (ann : String) (k : BasicKind) : Bool :=
  ann == "-" || (ann == "cdomain-name" || (ann == "domain-name" || (ann == "a" ||
    (ann == "aaaa" || (ann == "uint48" || (ann == "txt" || (ann == "base32" ||
    (ann == "base64" || (ann == "hex" || (ann == "any" || (ann == "octet" ||
    (ann == "ipsechost" || (ann == "amtrelayhost" ||
    ((ann == "" && (k == .uint8 || (k == .uint16 || (k == .uint32 || (k == .uint64 ||
        k == .str))))) ||
    (hasPrefixB ann "size-base32:" || (hasPrefixB ann "size-base64:" ||
    hasPrefixB ann "size-hex:"))))))))))))))))

/-- The closed sequence annotation vocabulary of spec §4.2. -/
def annVocabSlice (ann : String) : Bool :=
  ann == "-" || (ann == "txt" || (ann == "opt" || (ann == "nsec" || (ann == "pairs" ||
    (ann == "domain-name" || ann == "apl")))))

/-! ## Helper lemmas shared by the claim theorems -/

theorem switchFirst_spec {α : Type} {P : α → Prop} :
    ∀ (l : List (Bool × α)) (dflt : α),
      (∀ b v, (b, v) ∈ l → b = true → P v) → P dflt → P (switchFirst l dflt)
  | [], _, _, hd => hd
  | (b, v) :: rest, dflt, harms, hd => by
    show P (if b = true then v else switchFirst rest dflt)
    by_cases hb : b = true
    · rw [if_pos hb]
      exact harms b v (List.mem_cons_self _ _) hb
    · rw [if_neg hb]
      exact switchFirst_spec rest dflt
        (fun b' v' hp hptrue => harms b' v' (List.mem_cons_of_mem _ hp) hptrue) hd

theorem switchFirst_all_false {α : Type} :
    ∀ (l : List (Bool × α)) (dflt : α),
      (∀ p ∈ l, p.1 = false) → switchFirst l dflt = dflt
  | [], _, _ => rfl
  | (b, v) :: rest, dflt, h => by
    have hb : b = false := h (b, v) (List.mem_cons_self _ _)
    show (if b = true then v else switchFirst rest dflt) = dflt
    rw [if_neg (by simp [hb])]
    exact switchFirst_all_false rest dflt (fun p hp => h p (List.mem_cons_of_mem _ hp))

theorem switchFirst_exists_true {α : Type} :
    ∀ (l : List (Bool × α)) (dflt : α), (∃ p ∈ l, p.1 = true) →
      ∃ p ∈ l, p.1 = true ∧ switchFirst l dflt = p.2
  | [], _, h => absurd h (by simp)
  | (b, v) :: rest, dflt, h => by
    by_cases hb : b = true
    · refine ⟨(b, v), List.mem_cons_self _ _, hb, ?_⟩
      show (if b = true then v else switchFirst rest dflt) = v
      rw [if_pos hb]
    · obtain ⟨p, hp, hpt⟩ := h
      rcases List.mem_cons.mp hp with rfl | hpr
      · exact absurd hpt hb
      · obtain ⟨q, hq, hqt, hqv⟩ := switchFirst_exists_true rest dflt ⟨p, hpr, hpt⟩
        refine ⟨q, List.mem_cons_of_mem _ hq, hqt, ?_⟩
        show (if b = true then v else switchFirst rest dflt) = q.2
        rw [if_neg hb]
        exact hqv

theorem packFieldLines_nil_iff {rn : String} {f : Field} {c : List String}
    (h : packFieldLines rn f = .ok c) : c = [] ↔ f.tag = "dns:\"-\"" := by
  obtain ⟨name, typ, tag⟩ := f
  cases typ with
  | slice =>
    simp only [packFieldLines] at h
    refine switchFirst_spec
      (P := fun res => res = Except.ok c → (c = [] ↔ tag = "dns:\"-\""))
      _ _ ?_ (fun heq => Except.noConfusion heq) h
    intro g v hp
    fin_cases hp
    · intro hg heq
      injection heq with heq
      subst heq
      try simp only [beq_iff_eq] at hg
      simp [hg]
    all_goals
      (intro hg heq
       try simp only [beq_iff_eq] at hg
       try dsimp only at heq
       injection heq with heq
       subst heq
       refine iff_of_false (by simp [packStep]) fun hdash => ?_
       subst hdash
       revert hg
       decide)
  | basic k =>
    simp only [packFieldLines] at h
    refine switchFirst_spec
      (P := fun res => res = Except.ok c → (c = [] ↔ tag = "dns:\"-\""))
      _ _ ?_ (fun heq => Except.noConfusion heq) h
    intro g v hp
    fin_cases hp
    · intro hg heq
      injection heq with heq
      subst heq
      try simp only [beq_iff_eq] at hg
      simp [hg]
    all_goals
      first
        | (intro hg heq
           injection heq with heq
           subst heq
           refine iff_of_false (by simp [packStep]) fun hdash => ?_
           subst hdash
           revert hg
           decide)
        | (intro hg heq
           try simp only [beq_iff_eq] at hg
           subst hg
           cases k <;> simp only [untaggedPack] at heq <;>
             first
               | (exact Except.noConfusion heq)
               | (injection heq with heq; subst heq;
                  exact iff_of_false (by simp [packStep]) (by decide)))

theorem unpackStepCore_nil_iff {rn : String} {f : Field} {c : List String} {r : Bool}
    (h : unpackStepCore rn f = .ok (c, r)) : c = [] ↔ f.tag = "dns:\"-\"" := by
  obtain ⟨name, typ, tag⟩ := f
  unfold unpackStepCore at h
  dsimp only at h
  by_cases hsz : hasPrefixB tag "dns:\"size-"
  · rw [if_pos hsz] at h
    refine switchFirst_spec
      (P := fun res => res = Except.ok (c, r) → (c = [] ↔ tag = "dns:\"-\""))
      _ _ ?_ (fun heq => Except.noConfusion heq) h
    intro g v hp
    fin_cases hp
    all_goals
      (intro hg heq
       try simp only [beq_iff_eq] at hg
       try dsimp only at heq
       injection heq with heq
       injection heq with h1 h2
       subst h1
       refine iff_of_false (by simp [unpackStep]) fun hdash => ?_
       subst hdash
       revert hsz
       decide)
  · rw [if_neg hsz] at h
    cases typ with
    | slice =>
      dsimp only at h
      refine switchFirst_spec
        (P := fun res => res = Except.ok (c, r) → (c = [] ↔ tag = "dns:\"-\""))
        _ _ ?_ (fun heq => Except.noConfusion heq) h
      intro g v hp
      fin_cases hp
      · intro hg heq
        injection heq with heq
        injection heq with h1 h2
        subst h1
        try simp only [beq_iff_eq] at hg
        simp [hg]
      all_goals
        (intro hg heq
         try simp only [beq_iff_eq] at hg
         try dsimp only at heq
         injection heq with heq
         injection heq with h1 h2
         subst h1
         refine iff_of_false (by simp [unpackStep]) fun hdash => ?_
         subst hdash
         revert hg
         decide)
    | basic k =>
      dsimp only at h
      refine switchFirst_spec
        (P := fun res => res = Except.ok (c, r) → (c = [] ↔ tag = "dns:\"-\""))
        _ _ ?_ (fun heq => Except.noConfusion heq) h
      intro g v hp
      fin_cases hp
      · intro hg heq
        injection heq with heq
        injection heq with h1 h2
        subst h1
        try simp only [beq_iff_eq] at hg
        simp [hg]
      all_goals
        first
          | (intro hg heq
             injection heq with heq
             injection heq with h1 h2
             subst h1
             refine iff_of_false (by simp [unpackStep, readIntStep]) fun hdash => ?_
             subst hdash
             revert hg
             decide)
          | (intro hg heq
             try simp only [beq_iff_eq] at hg
             subst hg
             cases k <;> simp only [untaggedUnpack] at heq <;>
               first
                 | (exact Except.noConfusion heq)
                 | (injection heq with heq; injection heq with h1 h2; subst h1;
                    exact iff_of_false (by simp [unpackStep, readIntStep]) (by decide)))

theorem unpackStepCore_reach_iff {rn : String} {f : Field} {c : List String} {r : Bool}
    (h : unpackStepCore rn f = .ok (c, r)) :
    r = true ↔
      (hasPrefixB f.tag "dns:\"size-" = false ∧ f.typ ≠ .slice ∧ f.tag ≠ "dns:\"-\"") := by
  obtain ⟨name, typ, tag⟩ := f
  unfold unpackStepCore at h
  dsimp only at h
  by_cases hsz : hasPrefixB tag "dns:\"size-"
  · rw [if_pos hsz] at h
    refine switchFirst_spec
      (P := fun res => res = Except.ok (c, r) → (r = true ↔ (hasPrefixB tag "dns:\"size-" = false ∧ typ ≠ FieldType.slice ∧ tag ≠ "dns:\"-\"")))
      _ _ ?_ (fun heq => Except.noConfusion heq) h
    intro g v hp
    fin_cases hp
    all_goals
      (intro hg heq
       try simp only [beq_iff_eq] at hg
       try dsimp only at heq
       injection heq with heq
       injection heq with h1 h2
       subst h2
       refine iff_of_false (by simp) fun hc => ?_
       rw [hsz] at hc
       exact absurd hc.1 (by simp))
  · have hsz' : hasPrefixB tag "dns:\"size-" = false := by
      simpa using hsz
    rw [if_neg hsz] at h
    cases typ with
    | slice =>
      dsimp only at h
      refine switchFirst_spec
        (P := fun res => res = Except.ok (c, r) → (r = true ↔ (hasPrefixB tag "dns:\"size-" = false ∧ FieldType.slice ≠ FieldType.slice ∧ tag ≠ "dns:\"-\"")))
        _ _ ?_ (fun heq => Except.noConfusion heq) h
      intro g v hp
      fin_cases hp
      all_goals
        (intro hg heq
         try simp only [beq_iff_eq] at hg
         try dsimp only at heq
         injection heq with heq
         injection heq with h1 h2
         subst h2
         exact iff_of_false (by simp) fun hc => hc.2.1 rfl)
    | basic k =>
      dsimp only at h
      refine switchFirst_spec
        (P := fun res => res = Except.ok (c, r) → (r = true ↔ (hasPrefixB tag "dns:\"size-" = false ∧ FieldType.basic k ≠ FieldType.slice ∧ tag ≠ "dns:\"-\"")))
        _ _ ?_ (fun heq => Except.noConfusion heq) h
      intro g v hp
      fin_cases hp
      · intro hg heq
        injection heq with heq
        injection heq with h1 h2
        subst h2
        try simp only [beq_iff_eq] at hg
        refine iff_of_false (by simp) fun hc => hc.2.2 hg
      all_goals
        first
          | (intro hg heq
             injection heq with heq
             injection heq with h1 h2
             subst h2
             refine iff_of_true rfl ⟨hsz', by simp, fun hdash => ?_⟩
             subst hdash
             revert hg
             decide)
          | (intro hg heq
             try simp only [beq_iff_eq] at hg
             subst hg
             cases k <;> simp only [untaggedUnpack] at heq <;>
               first
                 | (exact Except.noConfusion heq)
                 | (injection heq with heq; injection heq with h1 h2; subst h2;
                    exact iff_of_true rfl ⟨hsz', by simp, by decide⟩))

theorem packFieldsChunks_stepCount {rn : String} :
    ∀ {fs : List Field} {cs : List (List String)},
      packFieldsChunks rn fs = .ok cs →
      stepCount cs = (fs.filter (fun f => f.tag != "dns:\"-\"")).length := by
  intro fs
  induction fs with
  | nil =>
    intro cs h
    simp only [packFieldsChunks] at h
    cases h
    simp [stepCount]
  | cons f rest ih =>
    intro cs h
    simp only [packFieldsChunks] at h
    cases hf : packFieldLines rn f with
    | error e => rw [hf] at h; cases h
    | ok c =>
      rw [hf] at h
      cases hr : packFieldsChunks rn rest with
      | error e => rw [hr] at h; cases h
      | ok cs' =>
        rw [hr] at h
        cases h
        have hnil := packFieldLines_nil_iff hf
        by_cases hd : f.tag = "dns:\"-\""
        · have hc : c = [] := hnil.mpr hd
          subst hc
          simp [stepCount, List.filter_cons, hd, ih hr, stepCount] at *
          exact ih hr
        · have hc : ¬c = [] := fun hcc => hd (hnil.mp hcc)
          have hb : (f.tag != "dns:\"-\"") = true := bne_iff_ne.mpr hd
          have hce : c.isEmpty = false := by
            cases c with
            | nil => exact absurd rfl hc
            | cons a l => rfl
          simp [stepCount, List.filter_cons, hb, hce] at *
          exact ih hr

theorem unpackStepsOf_stepCount {rn : String} :
    ∀ {fs : List Field} {cs : List (List String)},
      unpackStepsOf rn fs = .ok cs →
      stepCount cs = (fs.filter (fun f => f.tag != "dns:\"-\"")).length := by
  intro fs
  induction fs with
  | nil =>
    intro cs h
    simp only [unpackStepsOf] at h
    cases h
    simp [stepCount]
  | cons f rest ih =>
    intro cs h
    simp only [unpackStepsOf] at h
    cases hf : unpackStepCore rn f with
    | error e => rw [hf] at h; cases h
    | ok cr =>
      obtain ⟨c, r⟩ := cr
      rw [hf] at h
      cases hr : unpackStepsOf rn rest with
      | error e => rw [hr] at h; cases h
      | ok cs' =>
        rw [hr] at h
        cases h
        have hnil := unpackStepCore_nil_iff hf
        by_cases hd : f.tag = "dns:\"-\""
        · have hc : c = [] := hnil.mpr hd
          subst hc
          simp [stepCount, List.filter_cons, hd, ih hr] at *
          exact ih hr
        · have hc : ¬c = [] := fun hcc => hd (hnil.mp hcc)
          have hb : (f.tag != "dns:\"-\"") = true := bne_iff_ne.mpr hd
          have hce : c.isEmpty = false := by
            cases c with
            | nil => exact absurd rfl hc
            | cons a l => rfl
          simp [stepCount, List.filter_cons, hb, hce] at *
          exact ih hr

theorem lookupScope_mem {scope : Scope} {n : String} {t : Ty}
    (h : lookupScope scope n = some t) : n ∈ scope.map (·.1) := by
  unfold lookupScope at h
  cases hf : List.find? (fun q => q.1 == n) scope with
  | none => rw [hf] at h; cases h
  | some pr =>
    have hmem : pr ∈ scope := List.mem_of_find?_eq_some hf
    have hep : pr.1 = n := by simpa using List.find?_some hf
    exact List.mem_map.mpr ⟨pr, hmem, hep⟩

theorem foldlM_error_of_mem {β : Type} {step : List β → String → Except String (List β)}
    (bad : String) (hbad : ∀ acc, ∃ e, step acc bad = .error e) :
    ∀ (names : List String) (acc : List β),
      bad ∈ names → ∃ e, List.foldlM step acc names = .error e := by
  intro names
  induction names with
  | nil => intro acc h; cases h
  | cons n ns ih =>
    intro acc hmem
    rcases List.mem_cons.mp hmem with rfl | hmem'
    · obtain ⟨e, he⟩ := hbad acc
      refine ⟨e, ?_⟩
      rw [List.foldlM_cons, he]
      rfl
    · cases hs : step acc n with
      | error e =>
        refine ⟨e, ?_⟩
        rw [List.foldlM_cons, hs]
        rfl
      | ok acc' =>
        obtain ⟨e, he⟩ := ih acc' hmem'
        refine ⟨e, ?_⟩
        rw [List.foldlM_cons, hs]
        exact he

/-- Record-classification helper for C7, recursing exactly as `getTypeStruct` does. -/
theorem getTypeStruct_spec_aux : ∀ t : Ty, ((getTypeStruct t).1).isSome = isRecordPerSpec t
  | .rrHeader => by simp [getTypeStruct, isRecordPerSpec]
  | .nonStruct => by simp [getTypeStruct, isRecordPerSpec]
  | .struc [] => by simp [getTypeStruct, isRecordPerSpec]
  | .struc ((anon, fty) :: rest) => by
    by_cases hh : isHeaderTy fty
    · simp [getTypeStruct, isRecordPerSpec, hh]
    · by_cases ha : anon
      · have ih := getTypeStruct_spec_aux fty
        simp [getTypeStruct, isRecordPerSpec, hh, ha, ih]
      · simp [getTypeStruct, isRecordPerSpec, hh, ha]

/-! ## Claim theorems -/

/-- Claim C4: for every record schema, the generated unpack routine ends with
the cursor-fully-consumed check after the last field's step — the emitted lines
always finish with `if !s.Empty() \x7b return errTrailingRData \x7d` followed by the
`return nil` footer, so leftover bytes hit the trailing-data error rather than
being silently accepted. -/
theorem C4_trailing_data_check :
    ∀ (rn : String) (st : List Field) (ls : List String),
      unpackRoutineLines rn st = .ok ls →
      ∃ body,
        ls = ["func (rr *" ++ rn ++ ") unpack(data, msgBuf []byte) (err error) \x7b\n",
               "s := cryptobyte.String(data)\n"] ++ body ++
              [trailingCheckLine, "return nil \x7d\n\n"] := by
  intro rn st ls h
  unfold unpackRoutineLines at h
  cases hc : unpackFieldsChunks rn (st.drop 1) with
  | error e => rw [hc] at h; cases h
  | ok chunks =>
    rw [hc] at h
    cases h
    exact ⟨chunks.flatten, rfl⟩

/-- Witness for C4 at the §8 Example schema. -/
theorem C4_trailing_data_check_witness :
    ∃ ls, unpackRoutineLines "Example" exampleFields = .ok ls ∧
      ∃ body,
        ls = ["func (rr *Example) unpack(data, msgBuf []byte) (err error) \x7b\n",
               "s := cryptobyte.String(data)\n"] ++ body ++
              [trailingCheckLine, "return nil \x7d\n\n"] :=
  ⟨_, rfl, C4_trailing_data_check "Example" exampleFields _ rfl⟩

/-- Claim C6: the number of emitted pack steps equals the number of fields
after the header whose tag is not the ignored marker `dns:"-"`, and likewise
for unpack field steps; and the header field is skipped purely by index
position — replacing the first field by any other field leaves both emitted
routines unchanged. -/
theorem C6_step_counts :
    (∀ (rn : String) (st : List Field) (cs : List (List String)),
        packFieldsChunks rn (st.drop 1) = .ok cs →
        stepCount cs = ((st.drop 1).filter (fun f => f.tag != "dns:\"-\"")).length) ∧
    (∀ (rn : String) (st : List Field) (cs : List (List String)),
        unpackStepChunks rn st = .ok cs →
        stepCount cs = ((st.drop 1).filter (fun f => f.tag != "dns:\"-\"")).length) ∧
    (∀ (rn : String) (h₁ h₂ : Field) (rest : List Field),
        packRoutineLines rn (h₁ :: rest) = packRoutineLines rn (h₂ :: rest) ∧
        unpackRoutineLines rn (h₁ :: rest) = unpackRoutineLines rn (h₂ :: rest)) := by
  refine ⟨?_, ?_, ?_⟩
  · intro rn st cs h
    exact packFieldsChunks_stepCount h
  · intro rn st cs h
    exact unpackStepsOf_stepCount h
  · intro rn h₁ h₂ rest
    exact ⟨rfl, rfl⟩

/-- Witness for C6 at the §8 Example schema: three non-ignored fields after
the header, three pack steps and three unpack steps. -/
theorem C6_step_counts_witness :
    ∃ cs₁ cs₂,
      packFieldsChunks "Example" (exampleFields.drop 1) = .ok cs₁ ∧
      stepCount cs₁ = ((exampleFields.drop 1).filter (fun f => f.tag != "dns:\"-\"")).length ∧
      unpackStepChunks "Example" exampleFields = .ok cs₂ ∧
      stepCount cs₂ = ((exampleFields.drop 1).filter (fun f => f.tag != "dns:\"-\"")).length :=
  ⟨_, _, rfl, C6_step_counts.1 "Example" exampleFields _ rfl, rfl,
    C6_step_counts.2.1 "Example" exampleFields _ rfl⟩

/-- Claim C7: `getTypeStruct` classifies a type as a record exactly when its
underlying representation is a non-empty struct whose first field's type is the
header type, or whose first field is anonymous with an embedded type that
recursively satisfies the rule; non-struct underlying types, empty structs and
non-matching non-anonymous first fields are not records. -/
theorem C7_record_classification :
    ∀ t : Ty, ((getTypeStruct t).1).isSome = isRecordPerSpec t :=
  getTypeStruct_spec_aux

/-- Claim C8: a discovered record type name with no `Type<name>` sibling in the
scope aborts generation, and the single whitelisted legacy name `RFC3597` is
exempt from the check. -/
theorem C8_type_code_sibling :
    (∀ (scope : Scope) (name : String) (t : Ty),
        lookupScope scope name = some t →
        isExported name = true →
        ((getTypeStruct t).1).isSome = true →
        name ≠ "PrivateRR" →
        lookupScope scope ("Type" ++ name) = none →
        name ≠ "RFC3597" →
        ∃ e, collectNamedTypes scope = .error e) ∧
    collectNamedTypes [("RFC3597", Ty.struc [(false, Ty.rrHeader)])] = .ok ["RFC3597"] := by
  constructor
  · intro scope name t hlook hexp hrec hpriv hnosib hnotrfc
    unfold collectNamedTypes
    refine foldlM_error_of_mem name ?_ _ [] (lookupScope_mem hlook)
    intro acc
    refine ⟨"Constant Type" ++ name ++ " does not exist.", ?_⟩
    have hne : ((getTypeStruct t).1).isNone = false := by
      cases hgs : (getTypeStruct t).1 with
      | none => rw [hgs] at hrec; cases hrec
      | some s => rfl
    have hb1 : (name == "PrivateRR") = false := beq_eq_false_iff_ne.mpr hpriv
    have hb2 : (name != "RFC3597") = true := bne_iff_ne.mpr hnotrfc
    simp [hlook, hexp, hne, hb1, hb2, hnosib]
  · rfl

/-- Witness for C8: a scope with record `Foo` and no `TypeFoo` aborts. -/
theorem C8_type_code_sibling_witness :
    ∃ e, collectNamedTypes [("Foo", Ty.struc [(false, Ty.rrHeader)])] = .error e :=
  C8_type_code_sibling.1 [("Foo", Ty.struc [(false, Ty.rrHeader)])] "Foo"
    (Ty.struc [(false, Ty.rrHeader)]) rfl rfl rfl (by decide) rfl (by decide)

/-- Claim C9: the generator is deterministic and idempotent — the emitted
source text is a pure function of the extracted schema list, so equal schema
inputs (in particular, two runs over an unchanged schema set) yield
byte-identical output. -/
theorem C9_deterministic :
    ∀ (s₁ s₂ : List (String × List Field)),
      s₁ = s₂ → generateSource s₁ = generateSource s₂ := by
  intro s₁ s₂ h
  rw [h]

/-- Witness for C9: two runs on the Example schema set agree. -/
theorem C9_deterministic_witness :
    generateSource [("Example", exampleFields)] = generateSource [("Example", exampleFields)] :=
  C9_deterministic [("Example", exampleFields)] [("Example", exampleFields)] rfl

/-- Claim C10: for `ipsechost`/`amtrelayhost` fields the emitted pack step
reads `rr.GatewayAddr` and `rr.GatewayType` together with the annotated field,
while the emitted unpack step assigns to the fixed names `rr.GatewayAddr` and
`rr.GatewayHost` without using the annotated field's own name at all (the
right-hand sides below do not depend on `nm`), so the generated code is only
well-formed when sibling fields with exactly those names exist. -/
theorem C10_gateway_composite :
    ∀ (rn nm : String) (k : BasicKind),
      packFieldLines rn ⟨nm, .basic k, "dns:\"ipsechost\""⟩ =
        .ok ["off, err = packIPSECGateway(rr.GatewayAddr, rr." ++ nm ++
               ", msg, off, rr.GatewayType, compression, false)\n", packErrLine] ∧
      packFieldLines rn ⟨nm, .basic k, "dns:\"amtrelayhost\""⟩ =
        .ok ["off, err = packIPSECGateway(rr.GatewayAddr, rr." ++ nm ++
               ", msg, off, rr.GatewayType, compression, false)\n", packErrLine] ∧
      unpackStepCore rn ⟨nm, .basic k, "dns:\"ipsechost\""⟩ =
        .ok (["rr.GatewayAddr, rr.GatewayHost, err = unpackIPSECGateway(&s, msgBuf, rr.GatewayType)\n",
              unpackErrLine], true) ∧
      unpackStepCore rn ⟨nm, .basic k, "dns:\"amtrelayhost\""⟩ =
        .ok (["rr.GatewayAddr, rr.GatewayHost, err = unpackIPSECGateway(&s, msgBuf, rr.GatewayType)\n",
              unpackErrLine], true) := by
  intro rn nm k
  refine ⟨rfl, rfl, rfl, rfl⟩

/-- Claim C1 counterexample: for the §8 Example schema the emitted unpack
routine contains exactly 3 field steps but only 1 interleaved empty-check, not
the 2 the claim asserts — the `txt` slice field B `continue`s past the
empty-check emission (line 268). -/
theorem C1_counterexample :
    (unpackRoutineLines "Example" exampleFields).map (fun ls => ls.count emptyCheckLine) =
      .ok 1 ∧
    (Except.ok 1 : Except String Nat) ≠ .ok 2 ∧
    (unpackStepChunks "Example" exampleFields).map stepCount = .ok 3 :=
  ⟨rfl, fun h => absurd (Except.ok.inj h) (by decide), rfl⟩

/-- Claim C1 (amended): the unpack emitter emits the early-success empty check
after a field step exactly when the field is not the last one and its step
falls through the scalar switch — that is, when its tag is not `size-`
parametrized, its shape is not a sequence, and it is not ignored; slice-shaped
and size-parametrized steps `continue` past the check.  For the §8 Example
schema this yields 3 field steps and exactly 1 interleaved empty-check before
the final trailing-data check. -/
theorem C1_amended_empty_checks :
    (∀ (rn : String) (f : Field) (ls : List String) (r : Bool),
        unpackStepCore rn f = .ok (ls, r) →
        (r = true ↔
          (hasPrefixB f.tag "dns:\"size-" = false ∧ f.typ ≠ .slice ∧ f.tag ≠ "dns:\"-\""))) ∧
    (∀ (rn : String) (f : Field) (isLast : Bool) (ls : List String) (r : Bool),
        unpackStepCore rn f = .ok (ls, r) →
        unpackFieldChunk rn f isLast =
          .ok (ls ++ if r && !isLast then [emptyCheckLine] else [])) ∧
    (unpackStepChunks "Example" exampleFields).map stepCount = .ok 3 ∧
    (unpackRoutineLines "Example" exampleFields).map (fun ls => ls.count emptyCheckLine) =
      .ok 1 := by
  refine ⟨?_, ?_, rfl, rfl⟩
  · intro rn f ls r h
    exact unpackStepCore_reach_iff h
  · intro rn f isLast ls r h
    simp [unpackFieldChunk, h]

/-- Witness for the amended C1, at the Example schema's `A uint16` field. -/
theorem C1_amended_empty_checks_witness :
    (true = true ↔
      (hasPrefixB "" "dns:\"size-" = false ∧
        FieldType.basic BasicKind.uint16 ≠ .slice ∧ ("" : String) ≠ "dns:\"-\"")) ∧
    unpackFieldChunk "Example" ⟨"A", .basic .uint16, ""⟩ false =
      .ok (readIntStep "Uint16" "A" ++ [emptyCheckLine]) :=
  ⟨C1_amended_empty_checks.1 "Example" ⟨"A", .basic .uint16, ""⟩
      (readIntStep "Uint16" "A") true rfl,
   C1_amended_empty_checks.2.1 "Example" ⟨"A", .basic .uint16, ""⟩ false
      (readIntStep "Uint16" "A") true rfl⟩

/-- Claim C2 counterexample: a size-parametrized blob field whose referenced
length field is literally named `SaltLength` but whose encoding is `base32`
(tag `dns:"size-base32:SaltLength"`) is packed unconditionally by
`packStringBase32`, with no sentinel conditional — the sentinel check matches
on the `dns:"size-hex:SaltLength` tag prefix (line 156), not on the referenced
field name. -/
theorem C2_counterexample :
    structMember "dns:\"size-base32:SaltLength\"" = "SaltLength" ∧
    packFieldLines "X" ⟨"Salt", .basic .str, "dns:\"size-base32:SaltLength\""⟩ =
      .ok (packStep "packStringBase32" "Salt" ", msg, off)\n") ∧
    packStep "packStringBase32" "Salt" ", msg, off)\n" ≠ [saltPackChunk "Salt"] :=
  ⟨rfl, rfl, by decide⟩

theorem strExt {a b : String} (h : a.data = b.data) : a = b := by
  obtain ⟨da⟩ := a
  obtain ⟨db⟩ := b
  cases h
  rfl

theorem hasPrefixB_iff {s p : String} : hasPrefixB s p = true ↔ p.data <+: s.data := by
  simp [hasPrefixB]

theorem takeWhile_reverse_concat {fd : List Char} (h : fd.all (fun c => c != ':') = true)
    (pd : List Char) :
    ((pd ++ ':' :: (fd ++ ['"'])).reverse.takeWhile (fun c => c != ':')).reverse
      = fd ++ ['"'] := by
  have hall : ∀ a ∈ fd.reverse, (a != ':') = true := by
    intro a ha
    exact List.all_eq_true.mp h a (List.mem_reverse.mp ha)
  rw [List.reverse_append, List.reverse_cons, List.reverse_append]
  simp only [List.reverse_cons, List.reverse_nil, List.nil_append, List.singleton_append,
    List.append_assoc]
  have hall2 : ∀ a ∈ ('"' :: fd.reverse), (a != ':') = true := by
    intro a ha
    rcases List.mem_cons.mp ha with rfl | ha'
    · decide
    · exact hall a ha'
  rw [List.takeWhile_append_of_pos hall2]
  rw [List.takeWhile_cons_of_neg (by decide)]
  simp

theorem trimSuffix_quote_list (fd : List Char) : trimSuffixStr ⟨fd ++ ['"']⟩ "\"" = ⟨fd⟩ := by
  unfold trimSuffixStr
  have hcond : (("\"" : String).data.isSuffixOf ((⟨fd ++ ['"']⟩ : String)).data) = true := by
    show ((['"'] : List Char).isSuffixOf (fd ++ ['"'])) = true
    simp
  rw [if_pos hcond]
  refine strExt ?_
  show (fd ++ ['"']).take ((fd ++ ['"']).length - (['"'] : List Char).length) = fd
  rw [List.length_append]
  norm_num

theorem structMember_colonTag (pd : List Char) {fd : List Char}
    (hfd : fd.all (fun c => c != ':') = true) :
    structMember ⟨pd ++ ':' :: (fd ++ ['"'])⟩ = ⟨fd⟩ := by
  unfold structMember afterLastColon
  rw [show ((⟨pd ++ ':' :: (fd ++ ['"'])⟩ : String)).data = pd ++ ':' :: (fd ++ ['"']) from rfl]
  rw [takeWhile_reverse_concat hfd pd]
  exact trimSuffix_quote_list fd

theorem salt_guard_false {fld : String} (hs : hasPrefixB fld "SaltLength" = false) :
    hasPrefixB ("dns:\"size-hex:" ++ fld ++ "\"") "dns:\"size-hex:SaltLength" = false := by
  by_contra hc
  rw [Bool.not_eq_false, hasPrefixB_iff, String.data_append, String.data_append] at hc
  rw [show ("dns:\"size-hex:SaltLength" : String).data
        = ("dns:\"size-hex:" : String).data ++ ("SaltLength" : String).data from rfl] at hc
  rw [show ("\"" : String).data = ['"'] from rfl] at hc
  rw [List.append_assoc, List.prefix_append_right_inj] at hc
  rcases List.prefix_concat_iff.mp hc with heq | hpre
  · have hlast := congrArg List.getLast? heq
    rw [List.getLast?_concat] at hlast
    exact absurd hlast (by decide)
  · rw [← hasPrefixB_iff] at hpre
    rw [hs] at hpre
    exact Bool.noConfusion hpre

/-- Claim C3: `size-base32:<f>`, `size-base64:<f>` and `size-hex:<f>` unpack
steps read exactly `int(rr.<f>)` bytes via the length-parametrized primitives,
whereas plain `base32`/`base64`/`hex` unpack steps consume all remaining
record bytes (`len(s)`); on the pack side, a size-parametrized blob field is
emitted with the same primitive as its unparametrized counterpart, apart from
the `size-hex:SaltLength` sentinel sub-case. -/
theorem C3_size_parametrized_blobs :
    ∀ (rn nm : String) (k : BasicKind) (fld : String),
      (fld.data.all (fun c => c != ':') = true →
        unpackStepCore rn ⟨nm, .basic k, "dns:\"size-hex:" ++ fld ++ "\""⟩ =
          .ok (unpackStep nm "unpackStringHex" ("&s, int(rr." ++ fld ++ ")"), false) ∧
        unpackStepCore rn ⟨nm, .basic k, "dns:\"size-base32:" ++ fld ++ "\""⟩ =
          .ok (unpackStep nm "unpackStringBase32" ("&s, int(rr." ++ fld ++ ")"), false) ∧
        unpackStepCore rn ⟨nm, .basic k, "dns:\"size-base64:" ++ fld ++ "\""⟩ =
          .ok (unpackStep nm "unpackStringBase64" ("&s, int(rr." ++ fld ++ ")"), false)) ∧
      unpackStepCore rn ⟨nm, .basic k, "dns:\"hex\""⟩ =
        .ok (unpackStep nm "unpackStringHex" "&s, len(s)", true) ∧
      unpackStepCore rn ⟨nm, .basic k, "dns:\"base32\""⟩ =
        .ok (unpackStep nm "unpackStringBase32" "&s, len(s)", true) ∧
      unpackStepCore rn ⟨nm, .basic k, "dns:\"base64\""⟩ =
        .ok (unpackStep nm "unpackStringBase64" "&s, len(s)", true) ∧
      packFieldLines rn ⟨nm, .basic k, "dns:\"size-base32:" ++ fld ++ "\""⟩ =
        packFieldLines rn ⟨nm, .basic k, "dns:\"base32\""⟩ ∧
      packFieldLines rn ⟨nm, .basic k, "dns:\"size-base64:" ++ fld ++ "\""⟩ =
        packFieldLines rn ⟨nm, .basic k, "dns:\"base64\""⟩ ∧
      (hasPrefixB fld "SaltLength" = false →
        packFieldLines rn ⟨nm, .basic k, "dns:\"size-hex:" ++ fld ++ "\""⟩ =
          packFieldLines rn ⟨nm, .basic k, "dns:\"hex\""⟩) := by
  intro rn nm k fld
  refine ⟨?_, rfl, rfl, rfl, ?_, ?_, ?_⟩
  · intro hfld
    have hmHex : structMember ("dns:\"size-hex:" ++ fld ++ "\"") = fld := by
      obtain ⟨fd⟩ := fld
      exact structMember_colonTag ("dns:\"size-hex" : String).data hfld
    have hmB32 : structMember ("dns:\"size-base32:" ++ fld ++ "\"") = fld := by
      obtain ⟨fd⟩ := fld
      exact structMember_colonTag ("dns:\"size-base32" : String).data hfld
    have hmB64 : structMember ("dns:\"size-base64:" ++ fld ++ "\"") = fld := by
      obtain ⟨fd⟩ := fld
      exact structMember_colonTag ("dns:\"size-base64" : String).data hfld
    refine ⟨?_, ?_, ?_⟩
    · obtain ⟨fd⟩ := fld
      conv_rhs => rw [← hmHex]
      rfl
    · obtain ⟨fd⟩ := fld
      conv_rhs => rw [← hmB32]
      rfl
    · obtain ⟨fd⟩ := fld
      conv_rhs => rw [← hmB64]
      rfl
  · obtain ⟨fd⟩ := fld
    rfl
  · obtain ⟨fd⟩ := fld
    rfl
  · intro hs
    have hsalt := salt_guard_false hs
    obtain ⟨fd⟩ := fld
    unfold packFieldLines
    dsimp only
    rw [hsalt]
    rfl

/-- Witness for C3 at a concrete length-field name `XLength`. -/
theorem C3_size_parametrized_blobs_witness :
    unpackStepCore "NSEC3" ⟨"Salt", .basic .str, "dns:\"size-hex:" ++ "XLength" ++ "\""⟩ =
      .ok (unpackStep "Salt" "unpackStringHex" ("&s, int(rr." ++ "XLength" ++ ")"), false) ∧
    packFieldLines "NSEC3" ⟨"Salt", .basic .str, "dns:\"size-hex:" ++ "XLength" ++ "\""⟩ =
      packFieldLines "NSEC3" ⟨"Salt", .basic .str, "dns:\"hex\""⟩ :=
  ⟨((C3_size_parametrized_blobs "NSEC3" "Salt" .str "XLength").1 (by decide)).1,
   (C3_size_parametrized_blobs "NSEC3" "Salt" .str "XLength").2.2.2.2.2.2 (by decide)⟩

theorem beq_nil_eq_false {l : List Char} (h : l ≠ []) : (l == ([] : List Char)) = false := by
  cases l with
  | nil => exact absurd rfl h
  | cons c t => rfl

theorem takeWhile_concat_ne_nil {r : List Char} (hr : ¬([':'] <+: r)) :
    (r ++ ['"']).takeWhile (fun c => c != ':') ≠ [] := by
  cases r with
  | nil => decide
  | cons c r' =>
    have hc : (c != ':') = true := by
      refine bne_iff_ne.mpr fun hcc => hr ?_
      subst hcc
      exact ⟨r', rfl⟩
    rw [List.cons_append, List.takeWhile_cons_of_pos (p := fun c => c != ':') hc]
    simp

theorem switchFirst_result_cases {α : Type} (l : List (Bool × α)) (dflt : α) :
    switchFirst l dflt = dflt ∨ ∃ p ∈ l, p.1 = true ∧ switchFirst l dflt = p.2 := by
  by_cases hex : ∃ p ∈ l, p.1 = true
  · exact Or.inr (switchFirst_exists_true l dflt hex)
  · refine Or.inl (switchFirst_all_false l dflt ?_)
    intro p hp
    rcases Bool.eq_false_or_eq_true p.1 with hb | hb
    · exact absurd ⟨p, hp, hb⟩ hex
    · exact hb

theorem exceptOk_switchFirst_true {γ : Type} (l : List (Bool × Except String γ)) (e : String)
    (harms : ∀ b v, (b, v) ∈ l → b = true → exceptOk v = true)
    (hex : ∃ p ∈ l, p.1 = true) :
    exceptOk (switchFirst l (.error e)) = true := by
  obtain ⟨p, hp, hpt, heq⟩ := switchFirst_exists_true l (.error e) hex
  rw [heq]
  exact harms p.1 p.2 hp hpt

theorem exceptOk_switchFirst_true_inv {γ : Type} {l : List (Bool × Except String γ)} {e : String}
    (hok : exceptOk (switchFirst l (.error e)) = true) :
    ∃ p ∈ l, p.1 = true ∧ switchFirst l (.error e) = p.2 := by
  rcases switchFirst_result_cases l (.error e) with hd | hsome
  · rw [hd] at hok
    exact Bool.noConfusion hok
  · exact hsome

theorem dnsWrap_ne_empty (ann : String) : ("dns:\"" ++ ann ++ "\"") ≠ "" := by
  intro h
  have hd := congrArg String.data h
  rw [String.data_append, String.data_append] at hd
  have h2 := List.append_eq_nil.mp hd
  exact absurd h2.2 (by decide)

theorem tagOfAnn_ne_empty {ann : String} (h : ¬ann = "") :
    tagOfAnn ann = "dns:\"" ++ ann ++ "\"" := by
  unfold tagOfAnn
  rw [if_neg (by simp [h])]

theorem dnsWrap_inj {x y : String} (h : "dns:\"" ++ x ++ "\"" = "dns:\"" ++ y ++ "\"") :
    x = y := by
  have hd := congrArg String.data h
  simp only [String.data_append, List.append_cancel_left_eq, List.append_cancel_right_eq] at hd
  exact strExt hd

theorem tag_prefix_iff {ann pre : String} (hne : ¬ann = "") :
    hasPrefixB (tagOfAnn ann) ("dns:\"" ++ pre) = true ↔ pre.data <+: ann.data ++ ['"'] := by
  rw [tagOfAnn_ne_empty hne, hasPrefixB_iff]
  show ("dns:\"" : String).data ++ pre.data <+:
      (("dns:\"" : String).data ++ ann.data) ++ ['"'] ↔ _
  rw [List.append_assoc, List.prefix_append_right_inj]

theorem hasPrefixB_weaken {s p q : String} (hpq : q.data <+: p.data)
    (h : hasPrefixB s p = true) : hasPrefixB s q = true := by
  rw [hasPrefixB_iff] at h ⊢
  exact hpq.trans h

theorem ann_prefix_of_tag_prefix {ann pre : String} (hne : ¬ann = "")
    (hlast : pre.data.getLast? ≠ some '"')
    (h : hasPrefixB (tagOfAnn ann) ("dns:\"" ++ pre) = true) :
    hasPrefixB ann pre = true := by
  rw [tag_prefix_iff hne] at h
  rcases List.prefix_concat_iff.mp h with heq | hp
  · refine absurd ?_ hlast
    rw [heq, List.getLast?_concat]
  · rw [hasPrefixB_iff]
    exact hp

/-- When a tag enters the `size-` branch of the unpack loop (line 233) and the
step is emitted without a fatal error, its `structTag` is one of the three
size-parametrized encodings of the switch at lines 236-245. -/
theorem unpackStepCore_size_inv {rn nm tg : String} {ft : FieldType}
    (hsz : hasPrefixB tg "dns:\"size-" = true)
    (hok : exceptOk (unpackStepCore rn ⟨nm, ft, tg⟩) = true) :
    structTag tg = "hex" ∨ structTag tg = "base32" ∨ structTag tg = "base64" := by
  unfold unpackStepCore at hok
  dsimp only at hok
  rw [if_pos hsz] at hok
  obtain ⟨q, hq, hqt, -⟩ := exceptOk_switchFirst_true_inv hok
  fin_cases hq
  · exact Or.inl (eq_of_beq hqt)
  · exact Or.inr (Or.inl (eq_of_beq hqt))
  · exact Or.inr (Or.inr (eq_of_beq hqt))

/-- At annotation level, generation succeeds for a scalar (basic-kind) field
exactly on the closed scalar vocabulary: both emitter passes accept the tag iff
the annotation is one of the fixed scalar annotations, the empty annotation on
a supported kind, or a colon-carrying `size-` form. -/
theorem fieldGenOk_scalar_eq_vocab (rn nm ann : String) (k : BasicKind) :
    fieldGenOk rn ⟨nm, .basic k, tagOfAnn ann⟩ = annVocabScalar ann k := by
  rw [Bool.eq_iff_iff]
  constructor
  · intro hok
    unfold fieldGenOk at hok
    obtain ⟨hok1, hok2⟩ := Bool.and_eq_true_iff.mp hok
    by_cases hne : ann = ""
    · subst hne
      have hp : exceptOk (untaggedPack rn k nm) = true := hok1
      cases k <;> first | rfl | exact Bool.noConfusion hp
    · have htag := tagOfAnn_ne_empty hne
      simp only [packFieldLines] at hok1
      obtain ⟨pr, hpr, hpt, -⟩ := exceptOk_switchFirst_true_inv hok1
      fin_cases hpr
      · have h := eq_of_beq hpt
        rw [htag] at h
        have h2 : ann = "-" := dnsWrap_inj (x := ann) (y := "-") h
        subst h2
        rfl
      · have h := eq_of_beq hpt
        rw [htag] at h
        have h2 : ann = "cdomain-name" := dnsWrap_inj (x := ann) (y := "cdomain-name") h
        subst h2
        rfl
      · have h := eq_of_beq hpt
        rw [htag] at h
        have h2 : ann = "domain-name" := dnsWrap_inj (x := ann) (y := "domain-name") h
        subst h2
        rfl
      · have h := eq_of_beq hpt
        rw [htag] at h
        have h2 : ann = "a" := dnsWrap_inj (x := ann) (y := "a") h
        subst h2
        rfl
      · have h := eq_of_beq hpt
        rw [htag] at h
        have h2 : ann = "aaaa" := dnsWrap_inj (x := ann) (y := "aaaa") h
        subst h2
        rfl
      · have h := eq_of_beq hpt
        rw [htag] at h
        have h2 : ann = "uint48" := dnsWrap_inj (x := ann) (y := "uint48") h
        subst h2
        rfl
      · have h := eq_of_beq hpt
        rw [htag] at h
        have h2 : ann = "txt" := dnsWrap_inj (x := ann) (y := "txt") h
        subst h2
        rfl
      · rcases Bool.or_eq_true_iff.mp hpt with hpre | heq
        · have hpre2 : hasPrefixB (tagOfAnn ann) ("dns:\"" ++ "size-base32") = true := hpre
          have hann := ann_prefix_of_tag_prefix hne (by decide) hpre2
          by_cases hcol : hasPrefixB ann "size-base32:" = true
          · simp [annVocabScalar, hcol]
          · exfalso
            obtain ⟨r, hr⟩ := hasPrefixB_iff.mp hann
            have hrcol : ¬([':'] <+: r) := fun hcp => hcol (by
              rw [hasPrefixB_iff,
                  show ("size-base32:" : String).data
                    = ("size-base32" : String).data ++ [':'] from rfl,
                  ← hr]
              exact (List.prefix_append_right_inj _).mpr hcp)
            have hann2 : ann = ⟨("size-base32" : String).data ++ r⟩ := strExt hr.symm
            subst hann2
            rcases unpackStepCore_size_inv (by exact rfl) hok2 with h3 | h3 | h3
            · have hbh : some 'b' = some 'h' :=
                congrArg List.head? (congrArg String.data h3)
              exact absurd hbh (by decide)
            · have hT : ['b', 'a', 's', 'e', '3', '2']
                    ++ ((r ++ ['"']).takeWhile (fun c => c != ':'))
                  = ['b', 'a', 's', 'e', '3', '2'] ++ ([] : List Char) :=
                congrArg String.data h3
              exact absurd (List.append_cancel_left hT) (takeWhile_concat_ne_nil hrcol)
            · have hbh : some '3' = some '6' :=
                congrArg (fun l : List Char => l[4]?) (congrArg String.data h3)
              exact absurd hbh (by decide)
        · have h := eq_of_beq heq
          rw [htag] at h
          have h2 : ann = "base32" := dnsWrap_inj (x := ann) (y := "base32") h
          subst h2
          rfl
      · rcases Bool.or_eq_true_iff.mp hpt with hpre | heq
        · have hpre2 : hasPrefixB (tagOfAnn ann) ("dns:\"" ++ "size-base64") = true := hpre
          have hann := ann_prefix_of_tag_prefix hne (by decide) hpre2
          by_cases hcol : hasPrefixB ann "size-base64:" = true
          · simp [annVocabScalar, hcol]
          · exfalso
            obtain ⟨r, hr⟩ := hasPrefixB_iff.mp hann
            have hrcol : ¬([':'] <+: r) := fun hcp => hcol (by
              rw [hasPrefixB_iff,
                  show ("size-base64:" : String).data
                    = ("size-base64" : String).data ++ [':'] from rfl,
                  ← hr]
              exact (List.prefix_append_right_inj _).mpr hcp)
            have hann2 : ann = ⟨("size-base64" : String).data ++ r⟩ := strExt hr.symm
            subst hann2
            rcases unpackStepCore_size_inv (by exact rfl) hok2 with h3 | h3 | h3
            · have hbh : some 'b' = some 'h' :=
                congrArg List.head? (congrArg String.data h3)
              exact absurd hbh (by decide)
            · have hbh : some '6' = some '3' :=
                congrArg (fun l : List Char => l[4]?) (congrArg String.data h3)
              exact absurd hbh (by decide)
            · have hT : ['b', 'a', 's', 'e', '6', '4']
                    ++ ((r ++ ['"']).takeWhile (fun c => c != ':'))
                  = ['b', 'a', 's', 'e', '6', '4'] ++ ([] : List Char) :=
                congrArg String.data h3
              exact absurd (List.append_cancel_left hT) (takeWhile_concat_ne_nil hrcol)
        · have h := eq_of_beq heq
          rw [htag] at h
          have h2 : ann = "base64" := dnsWrap_inj (x := ann) (y := "base64") h
          subst h2
          rfl
      · have hpre2 : hasPrefixB (tagOfAnn ann) ("dns:\"" ++ "size-hex:SaltLength") = true := hpt
        have hann := ann_prefix_of_tag_prefix hne (by decide) hpre2
        have hcol : hasPrefixB ann "size-hex:" = true :=
          hasPrefixB_weaken ⟨("SaltLength" : String).data, rfl⟩ hann
        simp [annVocabScalar, hcol]
      · rcases Bool.or_eq_true_iff.mp hpt with hpre | heq
        · have hpre2 : hasPrefixB (tagOfAnn ann) ("dns:\"" ++ "size-hex") = true := hpre
          have hann := ann_prefix_of_tag_prefix hne (by decide) hpre2
          by_cases hcol : hasPrefixB ann "size-hex:" = true
          · simp [annVocabScalar, hcol]
          · exfalso
            obtain ⟨r, hr⟩ := hasPrefixB_iff.mp hann
            have hrcol : ¬([':'] <+: r) := fun hcp => hcol (by
              rw [hasPrefixB_iff,
                  show ("size-hex:" : String).data
                    = ("size-hex" : String).data ++ [':'] from rfl,
                  ← hr]
              exact (List.prefix_append_right_inj _).mpr hcp)
            have hann2 : ann = ⟨("size-hex" : String).data ++ r⟩ := strExt hr.symm
            subst hann2
            rcases unpackStepCore_size_inv (by exact rfl) hok2 with h3 | h3 | h3
            · have hT : ['h', 'e', 'x'] ++ ((r ++ ['"']).takeWhile (fun c => c != ':'))
                  = ['h', 'e', 'x'] ++ ([] : List Char) :=
                congrArg String.data h3
              exact absurd (List.append_cancel_left hT) (takeWhile_concat_ne_nil hrcol)
            · have hbh : some 'h' = some 'b' :=
                congrArg List.head? (congrArg String.data h3)
              exact absurd hbh (by decide)
            · have hbh : some 'h' = some 'b' :=
                congrArg List.head? (congrArg String.data h3)
              exact absurd hbh (by decide)
        · have h := eq_of_beq heq
          rw [htag] at h
          have h2 : ann = "hex" := dnsWrap_inj (x := ann) (y := "hex") h
          subst h2
          rfl
      · have h := eq_of_beq hpt
        rw [htag] at h
        have h2 : ann = "any" := dnsWrap_inj (x := ann) (y := "any") h
        subst h2
        rfl
      · have h := eq_of_beq hpt
        rw [htag] at h
        have h2 : ann = "octet" := dnsWrap_inj (x := ann) (y := "octet") h
        subst h2
        rfl
      · rcases Bool.or_eq_true_iff.mp hpt with heq | heq
        · have h := eq_of_beq heq
          rw [htag] at h
          have h2 : ann = "ipsechost" := dnsWrap_inj (x := ann) (y := "ipsechost") h
          subst h2
          rfl
        · have h := eq_of_beq heq
          rw [htag] at h
          have h2 : ann = "amtrelayhost" := dnsWrap_inj (x := ann) (y := "amtrelayhost") h
          subst h2
          rfl
      · have h := eq_of_beq hpt
        rw [htag] at h
        exact absurd h (dnsWrap_ne_empty ann)
  · intro hv
    simp only [annVocabScalar, Bool.or_eq_true, Bool.and_eq_true, beq_iff_eq] at hv
    rcases hv with h|h|h|h|h|h|h|h|h|h|h|h|h|h|⟨he, hk⟩|h|h|h
    · subst h; rfl
    · subst h; rfl
    · subst h; rfl
    · subst h; rfl
    · subst h; rfl
    · subst h; rfl
    · subst h; rfl
    · subst h; rfl
    · subst h; rfl
    · subst h; rfl
    · subst h; rfl
    · subst h; rfl
    · subst h; rfl
    · subst h; rfl
    · subst he
      rcases hk with hk|hk|hk|hk|hk <;> subst hk <;> rfl
    · obtain ⟨r, hr⟩ := hasPrefixB_iff.mp h
      have hann2 : ann = ⟨("size-base32:" : String).data ++ r⟩ := strExt hr.symm
      subst hann2
      rfl
    · obtain ⟨r, hr⟩ := hasPrefixB_iff.mp h
      have hann2 : ann = ⟨("size-base64:" : String).data ++ r⟩ := strExt hr.symm
      subst hann2
      rfl
    · obtain ⟨r, hr⟩ := hasPrefixB_iff.mp h
      have hann2 : ann = ⟨("size-hex:" : String).data ++ r⟩ := strExt hr.symm
      subst hann2
      have hA : exceptOk (packFieldLines rn
          ⟨nm, .basic k, tagOfAnn ⟨("size-hex:" : String).data ++ r⟩⟩) = true := by
        simp only [packFieldLines]
        refine exceptOk_switchFirst_true _ _ ?_ ?_
        · intro b v hbv hb
          fin_cases hbv <;> first | rfl | exact Bool.noConfusion hb
        · exact ⟨_, List.mem_cons_of_mem _ (List.mem_cons_of_mem _ (List.mem_cons_of_mem _
            (List.mem_cons_of_mem _ (List.mem_cons_of_mem _ (List.mem_cons_of_mem _
            (List.mem_cons_of_mem _ (List.mem_cons_of_mem _ (List.mem_cons_of_mem _
            (List.mem_cons_of_mem _ (List.mem_cons_self _ _)))))))))), rfl⟩
      have hB : exceptOk (unpackStepCore rn
          ⟨nm, .basic k, tagOfAnn ⟨("size-hex:" : String).data ++ r⟩⟩) = true := rfl
      unfold fieldGenOk
      rw [hA, hB]
      rfl

/-- At annotation level, generation succeeds for a sequence (slice) field
exactly on the closed sequence vocabulary of seven annotations. -/
theorem fieldGenOk_slice_eq_vocab (rn nm ann : String) :
    fieldGenOk rn ⟨nm, .slice, tagOfAnn ann⟩ = annVocabSlice ann := by
  rw [Bool.eq_iff_iff]
  constructor
  · intro hok
    unfold fieldGenOk at hok
    obtain ⟨hok1, hok2⟩ := Bool.and_eq_true_iff.mp hok
    by_cases hne : ann = ""
    · subst hne
      exact Bool.noConfusion hok1
    · have htag := tagOfAnn_ne_empty hne
      simp only [packFieldLines] at hok1
      obtain ⟨pr, hpr, hpt, -⟩ := exceptOk_switchFirst_true_inv hok1
      fin_cases hpr
      · have h := eq_of_beq hpt
        rw [htag] at h
        have h2 : ann = "-" := dnsWrap_inj (x := ann) (y := "-") h
        subst h2
        rfl
      · have h := eq_of_beq hpt
        rw [htag] at h
        have h2 : ann = "txt" := dnsWrap_inj (x := ann) (y := "txt") h
        subst h2
        rfl
      · have h := eq_of_beq hpt
        rw [htag] at h
        have h2 : ann = "opt" := dnsWrap_inj (x := ann) (y := "opt") h
        subst h2
        rfl
      · have h := eq_of_beq hpt
        rw [htag] at h
        have h2 : ann = "nsec" := dnsWrap_inj (x := ann) (y := "nsec") h
        subst h2
        rfl
      · have h := eq_of_beq hpt
        rw [htag] at h
        have h2 : ann = "pairs" := dnsWrap_inj (x := ann) (y := "pairs") h
        subst h2
        rfl
      · have h := eq_of_beq hpt
        rw [htag] at h
        have h2 : ann = "domain-name" := dnsWrap_inj (x := ann) (y := "domain-name") h
        subst h2
        rfl
      · have h := eq_of_beq hpt
        rw [htag] at h
        have h2 : ann = "apl" := dnsWrap_inj (x := ann) (y := "apl") h
        subst h2
        rfl
  · intro hv
    simp only [annVocabSlice, Bool.or_eq_true, beq_iff_eq] at hv
    rcases hv with h|h|h|h|h|h|h <;> subst h <;> rfl

/-- Claim C5: the annotation interpreter is total over the closed vocabulary
and fatal outside it.  First conjunct: for a scalar field, both emitter passes
accept a tag exactly when its annotation is in the closed scalar vocabulary
(the fixed scalar annotations, the empty annotation over a supported basic
kind, or a size-parametrized `size-base32:<f>`/`size-base64:<f>`/`size-hex:<f>`
form); any other annotation hits `log.Fatalln`.  Second conjunct: the same for
sequence fields over the seven sequence annotations.  Remaining conjuncts: an
empty annotation resolves by the field's underlying kind to the
`packUint8/16/32/64`/`packString` pack codecs and the `ReadUint8/16/32/64`
reads or `unpackString`, and is fatal for any other basic kind. -/
theorem C5_annotation_vocabulary :
    (∀ rn nm ann : String, ∀ k : BasicKind,
        fieldGenOk rn ⟨nm, .basic k, tagOfAnn ann⟩ = annVocabScalar ann k) ∧
    (∀ rn nm ann : String,
        fieldGenOk rn ⟨nm, .slice, tagOfAnn ann⟩ = annVocabSlice ann) ∧
    (∀ rn nm : String,
      packFieldLines rn ⟨nm, .basic .uint8, tagOfAnn ""⟩
          = .ok (packStep "packUint8" nm ", msg, off)\n") ∧
      packFieldLines rn ⟨nm, .basic .uint16, tagOfAnn ""⟩
          = .ok (packStep "packUint16" nm ", msg, off)\n") ∧
      packFieldLines rn ⟨nm, .basic .uint32, tagOfAnn ""⟩
          = .ok (packStep "packUint32" nm ", msg, off)\n") ∧
      packFieldLines rn ⟨nm, .basic .uint64, tagOfAnn ""⟩
          = .ok (packStep "packUint64" nm ", msg, off)\n") ∧
      packFieldLines rn ⟨nm, .basic .str, tagOfAnn ""⟩
          = .ok (packStep "packString" nm ", msg, off)\n") ∧
      unpackStepCore rn ⟨nm, .basic .uint8, tagOfAnn ""⟩
          = .ok (readIntStep "Uint8" nm, true) ∧
      unpackStepCore rn ⟨nm, .basic .uint16, tagOfAnn ""⟩
          = .ok (readIntStep "Uint16" nm, true) ∧
      unpackStepCore rn ⟨nm, .basic .uint32, tagOfAnn ""⟩
          = .ok (readIntStep "Uint32" nm, true) ∧
      unpackStepCore rn ⟨nm, .basic .uint64, tagOfAnn ""⟩
          = .ok (readIntStep "Uint64" nm, true) ∧
      unpackStepCore rn ⟨nm, .basic .str, tagOfAnn ""⟩
          = .ok (unpackStep nm "unpackString" "&s", true) ∧
      fieldGenOk rn ⟨nm, .basic .other, tagOfAnn ""⟩ = false) :=
  ⟨fieldGenOk_scalar_eq_vocab, fieldGenOk_slice_eq_vocab,
   fun _ _ => ⟨rfl, rfl, rfl, rfl, rfl, rfl, rfl, rfl, rfl, rfl, rfl⟩⟩

/-- Claim C2 (amended): the `"-"` sentinel conditional is emitted for a scalar
field exactly when its raw tag starts with the prefix `dns:"size-hex:SaltLength`
(line 156) — the match is on that tag prefix, not on the referenced length
field's name and not on exact tag equality.  In particular a field tagged
`dns:"size-base32:SaltLength"` or `dns:"size-base64:SaltLength"` is packed
unconditionally by its encoding primitive, while for the `size-hex:SaltLength`
tag the pack routine emits only the sentinel-guarded chunk and the unpack step
reads `int(rr.SaltLength)` bytes with no sentinel check. -/
theorem C2_amended_salt_sentinel :
    (∀ (rn nm tag : String) (k : BasicKind),
        packFieldLines rn ⟨nm, .basic k, tag⟩ = .ok [saltPackChunk nm] ↔
          hasPrefixB tag "dns:\"size-hex:SaltLength" = true) ∧
    (∀ (rn nm : String) (k : BasicKind),
        packFieldLines rn ⟨nm, .basic k, "dns:\"size-base32:SaltLength\""⟩ =
          .ok (packStep "packStringBase32" nm ", msg, off)\n") ∧
        packFieldLines rn ⟨nm, .basic k, "dns:\"size-base64:SaltLength\""⟩ =
          .ok (packStep "packStringBase64" nm ", msg, off)\n") ∧
        packFieldLines rn ⟨nm, .basic k, "dns:\"size-hex:SaltLength\""⟩ =
          .ok [saltPackChunk nm] ∧
        unpackStepCore rn ⟨nm, .basic k, "dns:\"size-hex:SaltLength\""⟩ =
          .ok (unpackStep nm "unpackStringHex" "&s, int(rr.SaltLength)", false)) := by
  constructor
  · intro rn nm tag k
    constructor
    · intro h
      simp only [packFieldLines] at h
      refine switchFirst_spec
        (P := fun res => res = Except.ok [saltPackChunk nm] →
          hasPrefixB tag "dns:\"size-hex:SaltLength" = true)
        _ _ ?_ (fun heq => Except.noConfusion heq) h
      intro b v hbv
      fin_cases hbv
      · intro hb heq
        injection heq with heq
        injection heq
      · intro hb heq
        try dsimp only at heq
        injection heq with heq
        injection heq with h1 h2
        injection h2
      · intro hb heq
        try dsimp only at heq
        injection heq with heq
        injection heq with h1 h2
        injection h2
      · intro hb heq
        try dsimp only at heq
        injection heq with heq
        injection heq with h1 h2
        injection h2
      · intro hb heq
        try dsimp only at heq
        injection heq with heq
        injection heq with h1 h2
        injection h2
      · intro hb heq
        try dsimp only at heq
        injection heq with heq
        injection heq with h1 h2
        injection h2
      · intro hb heq
        try dsimp only at heq
        injection heq with heq
        injection heq with h1 h2
        injection h2
      · intro hb heq
        try dsimp only at heq
        injection heq with heq
        injection heq with h1 h2
        injection h2
      · intro hb heq
        try dsimp only at heq
        injection heq with heq
        injection heq with h1 h2
        injection h2
      · intro hb heq
        exact hb
      · intro hb heq
        try dsimp only at heq
        injection heq with heq
        injection heq with h1 h2
        injection h2
      · intro hb heq
        try dsimp only at heq
        injection heq with heq
        injection heq with h1 h2
        injection h2
      · intro hb heq
        try dsimp only at heq
        injection heq with heq
        injection heq with h1 h2
        injection h2
      · intro hb heq
        try dsimp only at heq
        injection heq with heq
        injection heq with h1 h2
        injection h2
      · intro hb heq
        cases k <;>
          first
            | exact Except.noConfusion heq
            | (injection heq with heq
               injection heq with h1 h2
               injection h2)
    · intro hpre
      obtain ⟨r, hr⟩ := hasPrefixB_iff.mp hpre
      have htag : tag = ⟨("dns:\"size-hex:SaltLength" : String).data ++ r⟩ :=
        strExt hr.symm
      subst htag
      have hg : hasPrefixB (⟨("dns:\"size-hex:SaltLength" : String).data ++ r⟩ : String)
          "dns:\"size-hex:SaltLength" = true := hasPrefixB_iff.mpr ⟨r, rfl⟩
      simp only [packFieldLines]
      rw [hg]
      rfl
  · intro rn nm k
    exact ⟨rfl, rfl, rfl, rfl⟩

end MsgGenerate
